import Mathlib

/-!
Verification development for `largefiles.py`, a disk-usage reporting script.

The script is embedded shallowly:

* Python's arbitrary-precision integers are `Nat`/`Int`.
* The float arithmetic of the script (`size /= 1024`, `path.size * threshold /
  len(result)`, `np.average`, `np.var`) is modelled exactly over the rationals.
  All the inputs the claims evaluate are dyadic values on which Python's binary
  floats are exact, so the rational model agrees with the float code there.
  The one float behaviour that exactness would erase is overflow:
  `format_size_int` models the integer entry point of `format_size`,
  including the `OverflowError` CPython raises when the first `int / int`
  division's quotient exceeds the largest finite double.
  Rationals are represented by an executable pair type `Q` (integer numerator,
  natural denominator, not necessarily reduced) so that every definition
  reduces inside the kernel; all operations on `Q` are denominator-agnostic
  except `qsqrt`, which first reduces its argument.
* `math.sqrt` is modelled by `qsqrt`, exact on perfect squares of rationals
  (the only points at which any claim inspects a square root).
* Filesystem state is a tree of `Entry` values recording, for each directory
  entry, the outcomes of the `lstat`/`stat`/`iterdir` calls the script makes.
  `logging.error` is modelled by an explicit list of log messages.
* The mutable `itertools.count()` shared by the HTML renderer is modelled by
  counter passing: the renderer returns an output that is a function of the
  starting counter value together with the number of identifiers consumed.
-/

/-- Executable rational numbers: `num / den` with `den` a (positive, in all
reachable uses) natural number.  Not kept in lowest terms; every operation
except `qsqrt` is independent of the representative. -/
structure Q where
  num : Int
  den : Nat
deriving DecidableEq, Repr

def qOfNat (n : Nat) : Q := ⟨n, 1⟩

def qZero : Q := ⟨0, 1⟩

def qOne : Q := ⟨1, 1⟩

/-- `a ≤ b` on rationals by cross multiplication (denominators positive). -/
def qble (a b : Q) : Bool := decide (a.num * b.den ≤ b.num * a.den)

/-- `a < b` on rationals by cross multiplication (denominators positive). -/
def qblt (a b : Q) : Bool := decide (a.num * b.den < b.num * a.den)

/-- Equality of the represented rationals (denominators positive). -/
def qeq (a b : Q) : Prop := a.num * b.den = b.num * a.den

instance (a b : Q) : Decidable (qeq a b) := by unfold qeq; infer_instance

def qadd (a b : Q) : Q := ⟨a.num * b.den + b.num * a.den, a.den * b.den⟩

def qsub (a b : Q) : Q := ⟨a.num * b.den - b.num * a.den, a.den * b.den⟩

def qmul (a b : Q) : Q := ⟨a.num * b.num, a.den * b.den⟩

/-- Division of a rational by a natural number (`x / n` in the script, with
`n` a positive length or the constant `1024`). -/
def qdivN (a : Q) (n : Nat) : Q := ⟨a.num, a.den * n⟩

/-- Floor of a rational (Euclidean division by the positive denominator). -/
def qfloor (q : Q) : Int := q.num.ediv q.den

/-- Round half to even, the rounding used by IEEE formatting in Python. -/
def rhe (q : Q) : Int :=
  let f := qfloor q
  let t := 2 * (q.num - f * q.den)
  if t < (q.den : Int) then f
  else if (q.den : Int) < t then f + 1
  else if f % 2 = 0 then f else f + 1

/-- Multiply a rational by `10 ^ k` for `k : Int`. -/
def qscale (q : Q) (k : Int) : Q :=
  if 0 ≤ k then ⟨q.num * (10 ^ k.toNat : Nat), q.den⟩
  else ⟨q.num, q.den * 10 ^ (-k).toNat⟩

/-- Reduce a rational to lowest terms. -/
def qnorm (q : Q) : Q :=
  let g := Nat.gcd q.num.natAbs q.den
  ⟨q.num / (g : Int), q.den / g⟩

/-- Fuelled Newton iteration for the integer square root (kernel-reducible,
unlike `Nat.sqrt`). -/
def isqrtAux : Nat → Nat → Nat → Nat
  | 0, x, _ => x
  | fuel + 1, x, n =>
    let y := (x + n / x) / 2
    if y < x then isqrtAux fuel y n else x

/-- Floor integer square root. -/
def isqrt (n : Nat) : Nat := if n ≤ 1 then n else isqrtAux n n n

/-- Square root, exact on perfect squares of reduced nonnegative rationals
(models `math.sqrt`, which the script only ever prints; every claim inspects
it only at perfect squares). -/
def qsqrt (q : Q) : Q :=
  let r := qnorm q
  ⟨isqrt r.num.toNat, isqrt r.den⟩

/-- `⌊log10 n⌋` for `n ≥ 1`, by fuelled repeated division. -/
def log10Aux : Nat → Nat → Nat
  | 0, _ => 0
  | fuel + 1, n => if n < 10 then 0 else log10Aux fuel (n / 10) + 1

def intLog10 (n : Nat) : Nat := log10Aux n n

/-- Smallest `k` with `a * 10 ^ k ≥ b` (for `1 ≤ a < b`), by fuelled search. -/
def clogAux : Nat → Nat → Nat → Nat
  | 0, _, _ => 0
  | fuel + 1, a, b => if b ≤ a then 0 else clogAux fuel (a * 10) b + 1

def dropTrailingZeros (l : List Char) : List Char :=
  (l.reverse.dropWhile (· == '0')).reverse

def pad2 (s : String) : String := if s.length < 2 then "0" ++ s else s

/-- Python's `'{:.4g}'.format` on a positive rational: 4 significant digits,
fixed notation for decimal exponents in `[-4, 3]`, scientific notation
otherwise, trailing zeros stripped. -/
def fmt4gPos (q : Q) : String :=
  let e0 : Int :=
    if qble qOne q then (intLog10 (qfloor q).toNat : Int)
    else - (clogAux q.den q.num.toNat q.den : Int)
  let m0 : Int := rhe (qscale q (3 - e0))
  let m : Nat := if m0 = 10000 then 1000 else m0.toNat
  let e : Int := if m0 = 10000 then e0 + 1 else e0
  let ds : List Char := (toString m).data
  if e < -4 ∨ 4 ≤ e then
    let frac := dropTrailingZeros ds.tail
    String.mk (ds.take 1 ++ (if frac.isEmpty then [] else '.' :: frac))
      ++ "e" ++ (if 0 ≤ e then "+" else "-") ++ pad2 (toString e.natAbs)
  else if 0 ≤ e then
    let k := e.toNat + 1
    let frac := dropTrailingZeros (ds.drop k)
    String.mk (ds.take k ++ (if frac.isEmpty then [] else '.' :: frac))
  else
    String.mk ('0' :: '.' :: (List.replicate (e.natAbs - 1) '0' ++ dropTrailingZeros ds))

/-- Python's `'{:.4g}'.format` on a rational. -/
def fmt4g (q : Q) : String :=
  if q.num = 0 then "0"
  else if q.num < 0 then "-" ++ fmt4gPos ⟨-q.num, q.den⟩
  else fmt4gPos q

/-- The loop of `format_size`: walk the unit list, dividing by 1024 while the
value is `≥ 1024`; fall through to `"YiB"` when the units are exhausted. -/
def formatSizeAux : List String → Q → String
  | [], q => fmt4g q ++ "YiB"
  | u :: us, q => if qblt q (qOfNat 1024) then fmt4g q ++ u else formatSizeAux us (qdivN q 1024)

/-- `format_size` from `largefiles.py`: add an appropriate binary unit.
This is the in-range regime of the loop, with the float values modelled by
exact rationals; the integer entry point including CPython's float-overflow
behaviour is `format_size_int`. -/
def format_size (q : Q) : String :=
  formatSizeAux ["B", "KiB", "MiB", "GiB", "TiB", "PiB", "EiB", "ZiB"] q

/-- `format_size` called on an integer byte count, as the script does.  The
first loop iteration compares the `int` exactly and, unless it returns with
`"B"`, executes `size /= 1024`: CPython `int / int` true division, which
produces the correctly rounded `float` quotient and raises `OverflowError`
when that quotient rounds to `2^1024` or beyond.  The largest finite double
is `2^1024 - 2^971` (odd mantissa), so with round-half-even a real quotient
`q` overflows exactly when `q ≥ 2^1024 - 2^970`; for division by 1024 that
is `n ≥ 2^1034 - 2^980`.  Every later iteration divides a finite float by
1024 (exact scaling downward), which cannot overflow, so the first division
is the only failure point. -/
def format_size_int (n : Nat) : Except String String :=
  if n < 1024 then .ok (fmt4g (qOfNat n) ++ "B")
  else if 2 ^ 1034 - 2 ^ 980 ≤ n then
    .error "OverflowError: integer division result too large for a float"
  else .ok (formatSizeAux ["KiB", "MiB", "GiB", "TiB", "PiB", "EiB", "ZiB"]
    (qdivN (qOfNat n) 1024))

/-!
## Filesystem model and scanner

An `Entry` records, for one directory entry, the data and outcomes of the
system calls `Directory.__init__` and `File.__init__` perform on it:

* `file name lstatSize` — a non-symlink, non-directory entry; `lstatSize` is
  `none` when `lstat` raises `OSError` (then `File.__init__` logs and records
  size `0`).
* `symlink name linkSize` — an entry for which `is_symlink()` is true;
  `linkSize` is its own link-stat size (`is_symlink()` returning true means
  the preceding `lstat` succeeded, so this stat cannot fail).
* `dir name lstat statIno listErr children` — a directory entry; `lstat` is
  `some (st_size, st_ino)` of the soft stat or `none` when it raises,
  `statIno` is the `st_ino` of the dereferencing `stat()` or `none` when it
  raises, `listErr` is true when `iterdir()` raises (CPython's `iterdir`
  lists the directory eagerly, so an enumeration error happens before any
  child is produced), and `children` is the listing in enumeration order.

`Node` is the in-memory tree the script builds (`File` and `Directory`
objects with their `name`, `size` and, for directories, `content`).
`logging.error` is modelled by returning a list of log messages.
-/

inductive Entry where
  | file (name : String) (lstatSize : Option Nat)
  | symlink (name : String) (linkSize : Nat)
  | dir (name : String) (lstat : Option (Nat × Nat)) (statIno : Option Nat)
      (listErr : Bool) (children : List Entry)

inductive Node where
  | file (name : String) (size : Nat)
  | dir (name : String) (size : Nat) (content : List Node)

def Node.size : Node → Nat
  | .file _ s => s
  | .dir _ s _ => s

def Node.name : Node → String
  | .file n _ => n
  | .dir n _ _ => n

/-- `File.__init__`: record the link-stat size, or log and record `0`. -/
def File.init (name : String) (lstatSize : Option Nat) : Node × List String :=
  match lstatSize with
  | some s => (.file name s, [])
  | none => (.file name 0, ["OSError: " ++ name])

mutual

/-- `Directory.__init__` (and, for file entries, `File.__init__`): scan one
directory entry, returning the constructed node and the error-log messages in
emission order.  Mirrors the `try` block of `Directory.__init__`: failing
`lstat`/`stat`/`iterdir` all degrade to size `0` with a logged error; a
junction (the two stats disagree on `st_ino`) returns a size-0 leaf with no
log; otherwise the directory's own `st_size` plus the loop's accumulated
sizes. -/
def scanEntry : Entry → Node × List String
  | .file n ls => File.init n ls
  | .symlink n s => (.file n s, [])
  | .dir n lst sti le cs =>
    match lst with
    | none => (.dir n 0 [], ["OSError: " ++ n])
    | some (sz, ino) =>
      match sti with
      | none => (.dir n 0 [], ["OSError: " ++ n])
      | some ino2 =>
        if ino2 ≠ ino then (.dir n 0 [], [])
        else if le then (.dir n 0 [], ["OSError: " ++ n])
        else
          let r := scanList cs
          (.dir n (sz + r.1) r.2.1, r.2.2)

/-- The `for path in self._obj.iterdir()` loop: a symlink contributes its
link size and no node; anything else is scanned (`Directory` or `File`) and
contributes its node and its size.  Returns the accumulated size
contribution, the `content` list, and the concatenated logs. -/
def scanList : List Entry → Nat × List Node × List String
  | [] => (0, [], [])
  | .symlink _ s :: es =>
    let r := scanList es
    (s + r.1, r.2.1, r.2.2)
  | .file n ls :: es =>
    let f := File.init n ls
    let r := scanList es
    (f.1.size + r.1, f.1 :: r.2.1, f.2 ++ r.2.2)
  | .dir n lst sti le cs :: es =>
    let d := scanEntry (.dir n lst sti le cs)
    let r := scanList es
    (d.1.size + r.1, d.1 :: r.2.1, d.2 ++ r.2.2)

end

/-- Link sizes of the symlink entries directly inside a listing. -/
def symlinkTotal : List Entry → Nat
  | [] => 0
  | .symlink _ s :: es => s + symlinkTotal es
  | _ :: es => symlinkTotal es

/-- Sum of the `size` fields of a list of nodes. -/
def childrenSizeSum (ns : List Node) : Nat := (ns.map Node.size).sum

/-- `Directory._default`'s argument, as the closed set of runtime types the
code distinguishes: `None`, `str`, `pathlib.Path`, or anything else
(represented by one further case). -/
inductive PathArg where
  | nonePA
  | strPA (s : String)
  | pathPA (s : String)
  | otherPA

/-- `Directory._default`: `None` becomes `Path('.')`, a `str` becomes
`Path(dirname)`, a `Path` passes through, anything else raises `TypeError`. -/
def Directory.defaultArg : PathArg → Except String String
  | .nonePA => .ok "."
  | .strPA s => .ok s
  | .pathPA s => .ok s
  | .otherPA => .error "path must be None, a str or a pathlib.Path"

/-- `Directory.__init__` from its public argument: resolve the argument with
`Directory._default` first (so a `TypeError` propagates before any
filesystem access), then scan the entry the path denotes in the ambient
filesystem `fs`. -/
def Directory.initArg (fs : String → Entry) (arg : PathArg) :
    Except String (Node × List String) :=
  (Directory.defaultArg arg).map fun p => scanEntry (fs p)

/-!
## Tree renderers

`print_tree` and `print_html_tree_elements` sort a directory's `content` by
size descending (Python's `sorted(..., key=..., reverse=True)` is a stable
descending sort, modelled by `List.insertionSort` with the relation
`fun a b => b.1 ≤ a.1`, which Mathlib implements stably), compute
`min_size = path.size * threshold / len(result)` and admit a child iff
`child.size >= min_size`; the rejected children's sizes go to the `others`
summary.

Both renderers are embedded by first rendering every child and pairing the
result with the child's size, then sorting and filtering the pairs.  This is
extensionally the source algorithm: the source sorts the child nodes first
and recurses only into admitted children, but a discarded rendering changes
no output, and (for the HTML backend) the id counter is threaded only
through the admitted children, exactly as the source consumes it.

The HTML backend's `itertools.count()` is modelled by counter passing: the
rendering of a node is a function of the starting counter value, together
with the number of identifiers the node's rendering consumes.  `htmlCore`
additionally returns the stream of toggle identifiers the rendering assigns
(the instrumentation used to state the id-uniqueness claim); output,
identifier stream and consumption count are computed from one shared
admission pass.
-/

def pipeStr (level : Nat) : String := String.mk (List.replicate level '|')

def spaceStr (level : Nat) : String := String.mk (List.replicate level ' ')

/-- `min_size = path.size * threshold / len(result)`. -/
def minSizeOf (size : Nat) (thr : Q) (n : Nat) : Q := qdivN (qmul (qOfNat size) thr) n

/-- The admission test `subpath.size >= min_size`. -/
def admits (minS : Q) (sz : Nat) : Bool := qble minS (qOfNat sz)

/-- `np.average` of a list of integer sizes. -/
def qavg (xs : List Nat) : Q := qdivN (qOfNat xs.sum) xs.length

/-- `np.var` (population variance) of a list of integer sizes. -/
def qvar (xs : List Nat) : Q :=
  let μ := qavg xs
  qdivN ((xs.map fun x => qmul (qsub (qOfNat x) μ) (qsub (qOfNat x) μ)).foldr qadd qZero)
    xs.length

/-- The `'{}+ {} {}'` node line of `print_tree`. -/
def treeLine (level : Nat) (size : Nat) (name : String) : String :=
  pipeStr level ++ "+ " ++ format_size (qOfNat size) ++ " " ++ name

/-- The `'{}|+ {} ({} others) avg={} stddev={}'` summary line of `print_tree`. -/
def othersLine (level : Nat) (xs : List Nat) : String :=
  pipeStr level ++ "|+ " ++ format_size (qOfNat xs.sum) ++ " (" ++ toString xs.length
    ++ " others) avg=" ++ format_size (qavg xs) ++ " stddev=" ++ format_size (qsqrt (qvar xs))

mutual

/-- `print_tree` from `largefiles.py`, as the list of lines it prints. -/
def print_tree (thr : Q) (lvl : Nat) : Node → List String
  | .file n s => [treeLine lvl s n]
  | .dir n s cs =>
    treeLine lvl s n ::
      (match renderKids thr (lvl + 1) cs with
       | [] => [pipeStr lvl ++ "  (empty)"]
       | k :: ks =>
         let result := List.insertionSort (fun a b => b.1 ≤ a.1) (k :: ks)
         let minS := minSizeOf s thr result.length
         let others := (result.filter fun p => !admits minS p.1).map (·.1)
         ((result.filter fun p => admits minS p.1).map (·.2)).flatten
           ++ if others.isEmpty then [] else [othersLine lvl others])

/-- Each child of the directory, rendered and paired with its size. -/
def renderKids (thr : Q) (lvl : Nat) : List Node → List (Nat × List String)
  | [] => []
  | c :: cs => (c.size, print_tree thr lvl c) :: renderKids thr lvl cs

end

/-- One character of `html.escape` (with its default `quote=True`), as the
list of characters it is replaced by. -/
def escChar (c : Char) : List Char :=
  if c = '&' then ['&', 'a', 'm', 'p', ';']
  else if c = '<' then ['&', 'l', 't', ';']
  else if c = '>' then ['&', 'g', 't', ';']
  else if c = '"' then ['&', 'q', 'u', 'o', 't', ';']
  else if c = '\'' then ['&', '#', 'x', '2', '7', ';']
  else [c]

/-- `html.escape` (with its default `quote=True`). -/
def html_escape (s : String) : String := String.mk (s.data.map escChar).flatten

/-- The `<div class="file">` line for a file node. -/
def fileDiv (lvl : Nat) (s : Nat) (n : String) : String :=
  spaceStr lvl ++ "<div class=\"file\"><span class=\"size\">("
    ++ html_escape (format_size (qOfNat s)) ++ ")</span> <span class=\"file-name\">"
    ++ html_escape n ++ "</span></div>\n"

def folderOpen (lvl : Nat) : String := spaceStr lvl ++ "<div class=\"folder\">\n"

/-- The checkbox/label line of a folder; `id` is the value drawn from the
shared counter, used for both the `id="..."` and `for="..."` attributes. -/
def folderLabel (lvl : Nat) (id : Nat) (s : Nat) (n : String) : String :=
  spaceStr lvl ++ " <input type=\"checkbox\" class=\"folder-check\" id=\"" ++ toString id
    ++ "\"><label for=\"" ++ toString id ++ "\" class=\"folder-name\"><span class=\"size\">("
    ++ html_escape (format_size (qOfNat s)) ++ ")</span> " ++ html_escape n ++ "</label>\n"

def emptyDiv (lvl : Nat) : String := spaceStr lvl ++ " <div class=\"others\">(empty)</div>\n"

def othersDiv (lvl : Nat) (xs : List Nat) : String :=
  spaceStr lvl ++ " <div class=\"others\"><span class=\"size\">("
    ++ html_escape (format_size (qOfNat xs.sum)) ++ ")</span> (" ++ toString xs.length
    ++ " others avg=" ++ html_escape (format_size (qavg xs))
    ++ " stddev=" ++ html_escape (format_size (qsqrt (qvar xs))) ++ ")</div>\n"

def folderClose (lvl : Nat) : String := spaceStr lvl ++ "</div>\n"

/-- One rendered child: output as a function of the starting counter, the
assigned toggle ids as a function of the starting counter, and the number of
counter values the child's rendering consumes. -/
abbrev HtmlPart := (Nat → String) × (Nat → List Nat) × Nat

/-- Concatenate rendered children, threading the counter left to right. -/
def threadOut : Nat → List HtmlPart → String
  | _, [] => ""
  | c, p :: rest => p.1 c ++ threadOut (c + p.2.2) rest

/-- The toggle ids of rendered children, threading the counter likewise. -/
def threadIds : Nat → List HtmlPart → List Nat
  | _, [] => []
  | c, p :: rest => p.2.1 c ++ threadIds (c + p.2.2) rest

def usedTotal (l : List HtmlPart) : Nat := (l.map (·.2.2)).sum

mutual

/-- `print_html_tree_elements`, instrumented: output string, assigned toggle
ids, and number of counter values consumed, with the counter made explicit
(the source draws ids from a module-level `itertools.count()`). -/
def htmlCore (thr : Q) (lvl : Nat) : Node → HtmlPart
  | .file n s => (fun _ => fileDiv lvl s n, fun _ => [], 0)
  | .dir n s cs =>
    let kids := coreKids thr (lvl + 1) cs
    let result := List.insertionSort (fun a b => b.1 ≤ a.1) kids
    let minS := if result.isEmpty then qZero else minSizeOf s thr result.length
    let shown := (result.filter fun p => admits minS p.1).map (·.2)
    let others := (result.filter fun p => !admits minS p.1).map (·.1)
    ( fun c0 =>
        folderOpen lvl ++ folderLabel lvl c0 s n
          ++ (if result.isEmpty then emptyDiv lvl else "")
          ++ threadOut (c0 + 1) shown
          ++ (if others.isEmpty then "" else othersDiv lvl others)
          ++ folderClose lvl,
      fun c0 => c0 :: threadIds (c0 + 1) shown,
      1 + usedTotal shown )

/-- Each child of the directory, rendered and paired with its size. -/
def coreKids (thr : Q) (lvl : Nat) : List Node → List (Nat × HtmlPart)
  | [] => []
  | c :: cs => (c.size, htmlCore thr lvl c) :: coreKids thr lvl cs

end

/-- `print_html_tree_elements` proper: the built string (as a function of
the starting counter value) and the number of counter values consumed. -/
def print_html_tree_elements (thr : Q) (lvl : Nat) (t : Node) : (Nat → String) × Nat :=
  ((htmlCore thr lvl t).1, (htmlCore thr lvl t).2.2)

/-- The toggle ids assigned during one rendering pass. -/
def html_ids (thr : Q) (lvl : Nat) (t : Node) : (Nat → List Nat) × Nat :=
  ((htmlCore thr lvl t).2.1, (htmlCore thr lvl t).2.2)

/-- `html_template` up to the `%s` placeholder. -/
def htmlHead : String :=
  "<!DOCTYPE html>\n<html>\n<head>\n<title>Large file report</title>\n<style>\n.folder, .file \x7b\n  font-family: \"Consolas\", \"Courier New\", \"Courier\", monospace;\n  font-weight: bold;\n  font-size: 14px;\n\x7d\n.folder-check \x7b\n  display: none;\n\x7d\n.folder-check ~ div \x7b\n  display: none;\n  padding-left: 1em;\n\x7d\n.folder-check:checked ~ div \x7b\n  display: block;\n\x7d\n.folder-name \x7b\n  color: #009;\n\x7d\n.file-name \x7b\n  color: #090;\n\x7d\n.size \x7b\n  color: #960;\n\x7d\n.others \x7b\n  color: #666;\n  font-weight: normal;\n\x7d\n</style>\n</head>\n<body>\n"

/-- `html_template` after the `%s` placeholder. -/
def htmlTail : String := "\n</body>\n</html>"

/-- `print_html_tree`: render the elements into a fresh buffer and wrap them
in the fixed template.  The id counter is the module-level default argument
of `print_html_tree_elements`, so it is NOT fresh per invocation: the
returned second component is the counter state after the call, which the
next invocation starts from. -/
def print_html_tree (thr : Q) (lvl : Nat) (t : Node) (c0 : Nat) : String × Nat :=
  let e := print_html_tree_elements thr lvl t
  (htmlHead ++ e.1 c0 ++ htmlTail, c0 + e.2)

/-!
## Scanner claims
-/

/-- The size contribution accumulated by the `iterdir` loop splits into the
symlink link sizes plus the sizes of the constructed child nodes. -/
theorem scanList_size_split (cs : List Entry) :
    (scanList cs).1 = symlinkTotal cs + childrenSizeSum (scanList cs).2.1 := by
  induction cs with
  | nil => simp [scanList, symlinkTotal, childrenSizeSum]
  | cons e es ih =>
    cases e with
    | file n ls =>
      simp only [scanList, symlinkTotal, childrenSizeSum, List.map_cons, List.sum_cons]
      unfold childrenSizeSum at ih
      omega
    | symlink n s =>
      simp only [scanList, symlinkTotal]
      omega
    | dir n lst sti le cs' =>
      simp only [scanList, symlinkTotal, childrenSizeSum, List.map_cons, List.sum_cons]
      unfold childrenSizeSum at ih
      omega

/-- C1 (amended): for a directory whose `lstat`, `stat` and `iterdir` all
succeed and whose two stats agree on the inode, the constructed `DirNode`'s
size is the directory's own link-stat `st_size` plus the sum of its
children's sizes plus the link sizes of the symlink entries directly inside
it — not the children-plus-symlinks sum alone. -/
theorem dir_size_eq_own_plus_children_plus_symlinks (n : String) (sz ino : Nat)
    (cs : List Entry) :
    scanEntry (.dir n (some (sz, ino)) (some ino) false cs)
      = (.dir n (sz + (scanList cs).1) (scanList cs).2.1, (scanList cs).2.2)
    ∧ (scanList cs).1 = symlinkTotal cs + childrenSizeSum (scanList cs).2.1 := by
  exact ⟨by simp [scanEntry], scanList_size_split cs⟩

/-- C1 counterexample: a successfully scanned empty directory whose own
`lstat` reports `st_size = 4096` yields a `DirNode` of size 4096, while the
sum of its children's sizes plus its direct symlink link sizes is 0. -/
theorem dir_size_not_children_sum_only :
    (scanEntry (.dir "d" (some (4096, 1)) (some 1) false [])).1 = Node.dir "d" 4096 []
    ∧ symlinkTotal [] + childrenSizeSum ((scanEntry (.dir "d" (some (4096, 1)) (some 1) false [])).1
        |> fun t => match t with | .dir _ _ c => c | .file _ _ => []) = 0
    ∧ (4096 : Nat) ≠ 0 := by
  exact ⟨rfl, rfl, by decide⟩

/-- C3 (amended): a root whose `lstat` fails (nonexistent path) or whose
enumeration fails (root is not a directory) does not propagate a failure to
the caller: `Directory.__init__` catches the `OSError`, logs it, and returns
a `DirNode` of size 0 with no children — for a `str` root argument the
constructor always returns a tree. -/
theorem bad_root_logged_and_degrades_to_zero (fs : String → Entry) (p n : String)
    (sz ino : Nat) (sti : Option Nat) (le : Bool) (cs : List Entry) :
    Directory.initArg fs (.strPA p) = .ok (scanEntry (fs p))
    ∧ scanEntry (.dir n none sti le cs) = (.dir n 0 [], ["OSError: " ++ n])
    ∧ scanEntry (.dir n (some (sz, ino)) (some ino) true cs)
        = (.dir n 0 [], ["OSError: " ++ n]) := by
  refine ⟨rfl, by simp [scanEntry], by simp [scanEntry]⟩

/-- C3 counterexample: scanning a nonexistent root returns a zero-size tree
(with the error only logged) instead of propagating a descriptive failure. -/
theorem bad_root_returns_zero_tree :
    Directory.initArg (fun _ => .dir "ghost" none none false []) (.strPA "ghost")
      = .ok (.dir "ghost" 0 [], ["OSError: ghost"]) := rfl

/-- C4: when a directory's child enumeration raises, the resulting `DirNode`
has size 0 and an empty `content`, the error is logged (exactly one message),
and scanning the remaining siblings continues unchanged. -/
theorem list_failure_zero_no_children_logged_scan_continues (n : String) (sz ino : Nat)
    (cs rest : List Entry) :
    scanEntry (.dir n (some (sz, ino)) (some ino) true cs)
      = (.dir n 0 [], ["OSError: " ++ n])
    ∧ scanList (.dir n (some (sz, ino)) (some ino) true cs :: rest)
      = ((scanList rest).1, .dir n 0 [] :: (scanList rest).2.1,
          ("OSError: " ++ n) :: (scanList rest).2.2) := by
  constructor
  · simp [scanEntry]
  · simp [scanList, scanEntry, Node.size]

/-- C5: when the soft (`lstat`) and dereferencing (`stat`) stats of a
directory disagree on `st_ino`, the scanner returns a zero-size leaf
`DirNode` with no children and no log entry, without enumerating the
directory — the result is independent of the (arbitrarily large) listing. -/
theorem junction_zero_leaf_not_enumerated (n : String) (sz ino ino2 : Nat) (le : Bool)
    (cs : List Entry) (h : ino2 ≠ ino) :
    scanEntry (.dir n (some (sz, ino)) (some ino2) le cs) = (.dir n 0 [], []) := by
  simp [scanEntry, h]

/-- Witness for C5: a junction with a huge target subtree still scans to a
zero-size leaf. -/
theorem junction_zero_leaf_not_enumerated_witness :
    (2 : Nat) ≠ 1
    ∧ scanEntry (.dir "junction" (some (7, 1)) (some 2) false
        [.file "huge" (some 1000000000), .dir "big" (some (1, 3)) (some 3) false
          [.file "x" (some 999)]])
      = (.dir "junction" 0 [], []) := by
  exact ⟨by decide,
    junction_zero_leaf_not_enumerated "junction" 7 1 2 false
      [.file "huge" (some 1000000000), .dir "big" (some (1, 3)) (some 3) false
        [.file "x" (some 999)]] (by decide)⟩

/-- C10: a `None` path argument scans the current directory `Path('.')`, and
an argument that is neither `None`, a `str` nor a `pathlib.Path` raises
`TypeError` before any traversal (the error is independent of the ambient
filesystem). -/
theorem default_arg_none_cwd_and_typeerror :
    (∀ fs : String → Entry, Directory.initArg fs .nonePA = .ok (scanEntry (fs ".")))
    ∧ ∀ fs : String → Entry, Directory.initArg fs .otherPA
        = .error "path must be None, a str or a pathlib.Path" :=
  ⟨fun _ => rfl, fun _ => rfl⟩

/-!
## `format_size` claims
-/

/-- If the value stays `≥ 1024` through every unit of the list, the
`format_size` loop exhausts the list and falls through to `"YiB"`, having
divided by `1024` once per unit. -/
theorem formatSizeAux_exhausts (us : List String) (q : Q)
    (h : (1024 : Int) ^ us.length * q.den ≤ q.num) :
    formatSizeAux us q = fmt4g ⟨q.num, q.den * 1024 ^ us.length⟩ ++ "YiB" := by
  induction us generalizing q with
  | nil =>
    simp only [formatSizeAux, List.length_nil, pow_zero, Nat.mul_one]
  | cons u us ih =>
    have hq : qblt q (qOfNat 1024) = false := by
      simp only [qblt, qOfNat, decide_eq_false_iff_not, not_lt]
      have h1 : (1024 : Int) * q.den ≤ (1024 : Int) ^ (u :: us).length * q.den := by
        have : (1024 : Int) ≤ 1024 ^ (u :: us).length := by
          calc (1024 : Int) = 1024 ^ 1 := (pow_one _).symm
          _ ≤ 1024 ^ (u :: us).length := by
            apply pow_le_pow_right₀ (by norm_num)
            simp only [List.length_cons]
            omega
        exact mul_le_mul_of_nonneg_right this (by positivity)
      calc (1024 : Int) * q.den ≤ q.num := le_trans h1 h
      _ = q.num * (1 : Nat) := by simp
    simp only [formatSizeAux, hq, Bool.false_eq_true, if_false]
    rw [ih]
    · have : q.den * 1024 * 1024 ^ us.length = q.den * 1024 ^ (u :: us).length := by
        simp [List.length_cons, pow_succ]
        ring
      simp only [qdivN, this]
    · simp only [qdivN, List.length_cons] at h ⊢
      calc (1024 : Int) ^ us.length * (q.den * 1024)
          = 1024 ^ (us.length + 1) * q.den := by ring
      _ ≤ q.num := h

/-- C8 (amended): `format_size` divides by 1024 through the binary units
and formats with 4 significant digits and no space: `format_size 0 = "0B"`,
`format_size 1024 = "1KiB"`, `format_size (1024^2) = "1MiB"`, the
docstring's `format_size (1 <<< 100) = "1.049e+06YiB"`; the integer entry
point agrees with the rational model on every input below the float
overflow bound `2^1034 - 2^980`, and within that bound every input
`≥ 1024^8` exhausts the unit list and renders with the `"YiB"` label.
Inputs at or above the bound instead raise `OverflowError` at the first
division (see `format_size_overflows_above_float_range`). -/
theorem format_size_units_and_yib_below_float_range :
    format_size qZero = "0B"
    ∧ format_size (qOfNat 1024) = "1KiB"
    ∧ format_size (qOfNat (1024 * 1024)) = "1MiB"
    ∧ format_size ⟨2 ^ 100, 1⟩ = "1.049e+06YiB"
    ∧ (∀ n : Nat, n < 2 ^ 1034 - 2 ^ 980 →
        format_size_int n = .ok (format_size (qOfNat n)))
    ∧ ∀ n : Nat, 1024 ^ 8 ≤ n → n < 2 ^ 1034 - 2 ^ 980 →
        format_size_int n = .ok (fmt4g ⟨(n : Int), 1024 ^ 8⟩ ++ "YiB") := by
  refine ⟨by decide, by decide, by decide, ?_, ?_, ?_⟩
  · set_option maxRecDepth 100000 in decide
  · intro n hn
    rw [format_size_int, format_size]
    by_cases h : n < 1024
    · rw [if_pos h]
      have hq : qblt (qOfNat n) (qOfNat 1024) = true := by
        simp only [qblt, qOfNat, decide_eq_true_eq]
        push_cast
        omega
      simp [formatSizeAux, hq]
    · rw [if_neg h, if_neg (not_le.mpr hn)]
      have hq : qblt (qOfNat n) (qOfNat 1024) = false := by
        simp only [qblt, qOfNat, decide_eq_false_iff_not, not_lt]
        push_cast
        omega
      simp [formatSizeAux, hq]
  · intro n h8 hov
    have h1024 : ¬ n < 1024 := by
      have : (1024 : Nat) ≤ 1024 ^ 8 := by norm_num
      omega
    rw [format_size_int, if_neg h1024, if_neg (not_le.mpr hov)]
    have h := formatSizeAux_exhausts ["KiB", "MiB", "GiB", "TiB", "PiB", "EiB", "ZiB"]
      (qdivN (qOfNat n) 1024) (by
        have h2 : ((1024 ^ 8 : Nat) : Int) ≤ ((n : Nat) : Int) := Int.ofNat_le.mpr h8
        norm_num [qdivN, qOfNat, List.length_cons, List.length_nil] at h2 ⊢
        omega)
    rw [h]
    norm_num [qdivN, qOfNat, List.length_cons, List.length_nil]

/-- C8 counterexample: `10^400` is at least `1024^8`, yet the program does
not render it with any label — its first division `size /= 1024` raises
`OverflowError`, so "renders with the YiB label without failing" is false
there. -/
theorem format_size_overflows_above_float_range :
    1024 ^ 8 ≤ 10 ^ 400
    ∧ format_size_int (10 ^ 400)
        = .error "OverflowError: integer division result too large for a float" :=
  ⟨by norm_num, by
    rw [format_size_int, if_neg (by norm_num), if_pos (by norm_num)]⟩

/-- Witness for C8: the agreement with the rational model and the `YiB`
fall-through, applied at `1024 ^ 9`, below the overflow bound. -/
theorem format_size_units_and_yib_below_float_range_witness :
    (1024 ^ 9 < 2 ^ 1034 - 2 ^ 980
      ∧ format_size_int (1024 ^ 9) = .ok (format_size (qOfNat (1024 ^ 9))))
    ∧ 1024 ^ 8 ≤ 1024 ^ 9
    ∧ format_size_int (1024 ^ 9)
        = .ok (fmt4g ⟨((1024 ^ 9 : Nat) : Int), 1024 ^ 8⟩ ++ "YiB") :=
  ⟨⟨by norm_num,
      format_size_units_and_yib_below_float_range.2.2.2.2.1 (1024 ^ 9) (by norm_num)⟩,
    by norm_num,
    format_size_units_and_yib_below_float_range.2.2.2.2.2 (1024 ^ 9) (by norm_num)
      (by norm_num)⟩

/-!
## Renderer claims
-/

instance instIsTotalSizeDesc (α : Type) : IsTotal (Nat × α) (fun a b => b.1 ≤ a.1) :=
  ⟨fun a b => Nat.le_total b.1 a.1⟩

instance instIsTransSizeDesc (α : Type) : IsTrans (Nat × α) (fun a b => b.1 ≤ a.1) :=
  ⟨fun _ _ _ h1 h2 => Nat.le_trans h2 h1⟩

theorem renderKids_eq_map (thr : Q) (lvl : Nat) (cs : List Node) :
    renderKids thr lvl cs = cs.map fun c => (c.size, print_tree thr lvl c) := by
  induction cs with
  | nil => simp [renderKids]
  | cons c cs ih => simp [renderKids, ih]

theorem coreKids_eq_map (thr : Q) (lvl : Nat) (cs : List Node) :
    coreKids thr lvl cs = cs.map fun c => (c.size, htmlCore thr lvl c) := by
  induction cs with
  | nil => simp [coreKids]
  | cons c cs ih => simp [coreKids, ih]

/-- Characterization of `print_tree` on a nonempty directory: the admitted
children (in sorted order) are rendered in full, the rest summarized. -/
theorem print_tree_dir_eq (thr : Q) (lvl : Nat) (n : String) (s : Nat) (c : Node)
    (cs' : List Node) :
    print_tree thr lvl (.dir n s (c :: cs'))
      = treeLine lvl s n ::
        (let result := List.insertionSort (fun a b => b.1 ≤ a.1)
            ((c :: cs').map fun x => (x.size, print_tree thr (lvl + 1) x))
         let minS := minSizeOf s thr (c :: cs').length
         ((result.filter fun p => admits minS p.1).map (·.2)).flatten
           ++ if ((result.filter fun p => !admits minS p.1).map (·.1)).isEmpty then []
              else [othersLine lvl ((result.filter fun p => !admits minS p.1).map (·.1))]) := by
  have hlen : (List.insertionSort (fun a b => (b.1 : Nat) ≤ a.1)
      ((c :: cs').map fun x => (x.size, print_tree thr (lvl + 1) x))).length
      = (c :: cs').length := by
    rw [List.length_insertionSort, List.length_map]
  simp only [print_tree, renderKids_eq_map, List.map_cons]
  simp only [List.map_cons] at hlen
  rw [hlen]

/-- Characterization of `htmlCore` on a nonempty directory. -/
theorem htmlCore_dir_eq (thr : Q) (lvl : Nat) (n : String) (s : Nat) (c : Node)
    (cs' : List Node) :
    htmlCore thr lvl (.dir n s (c :: cs'))
      = (let result := List.insertionSort (fun a b => b.1 ≤ a.1)
            ((c :: cs').map fun x => (x.size, htmlCore thr (lvl + 1) x))
         let minS := minSizeOf s thr (c :: cs').length
         let shown := (result.filter fun p => admits minS p.1).map (·.2)
         let others := (result.filter fun p => !admits minS p.1).map (·.1)
         (fun c0 => folderOpen lvl ++ folderLabel lvl c0 s n ++ threadOut (c0 + 1) shown
             ++ (if others.isEmpty then "" else othersDiv lvl others) ++ folderClose lvl,
          fun c0 => c0 :: threadIds (c0 + 1) shown,
          1 + usedTotal shown)) := by
  have hlen : (List.insertionSort (fun a b => (b.1 : Nat) ≤ a.1)
      ((c :: cs').map fun x => (x.size, htmlCore thr (lvl + 1) x))).length
      = (c :: cs').length := by
    rw [List.length_insertionSort, List.length_map]
  have hne : (List.insertionSort (fun a b => (b.1 : Nat) ≤ a.1)
      ((c :: cs').map fun x => (x.size, htmlCore thr (lvl + 1) x))).isEmpty = false := by
    rw [List.isEmpty_eq_false_iff_exists_mem]
    refine ⟨(c.size, htmlCore thr (lvl + 1) c), ?_⟩
    rw [List.mem_insertionSort]
    simp
  simp only [htmlCore, coreKids_eq_map, List.map_cons]
  simp only [List.map_cons] at hlen hne
  rw [hlen, hne]
  simp only [Bool.false_eq_true, if_false]
  refine Prod.ext ?_ rfl
  funext c0
  simp only [String.append_empty]

/-- C2: for a directory with at least one child, both renderers compute
`min_size = parent.size * threshold / number_of_children`, render as full
recursive subtrees exactly the children of the size-descending sorted list
whose size admits them (`size >= min_size`), and, exactly when some child
falls below `min_size`, emit one summary whose fields are the deferred
sizes' total, count, arithmetic mean and population standard deviation,
each size formatted via `format_size` (see `othersLine`/`othersDiv`). -/
theorem render_admits_by_min_size_and_summarizes_others (thr : Q) (lvl : Nat) (n : String)
    (s : Nat) (cs : List Node) (h : cs ≠ []) :
    (print_tree thr lvl (.dir n s cs)
      = treeLine lvl s n ::
          (let result := List.insertionSort (fun a b => b.1 ≤ a.1)
              (cs.map fun x => (x.size, print_tree thr (lvl + 1) x))
           let minS := minSizeOf s thr cs.length
           ((result.filter fun p => admits minS p.1).map (·.2)).flatten
             ++ if ((result.filter fun p => !admits minS p.1).map (·.1)).isEmpty then []
                else [othersLine lvl ((result.filter fun p => !admits minS p.1).map (·.1))]))
    ∧ List.Sorted (fun a b => b.1 ≤ a.1)
        (List.insertionSort (fun a b => b.1 ≤ a.1)
          (cs.map fun x => (x.size, print_tree thr (lvl + 1) x)))
    ∧ print_html_tree_elements thr lvl (.dir n s cs)
      = (let result := List.insertionSort (fun a b => b.1 ≤ a.1)
             (cs.map fun x => (x.size, htmlCore thr (lvl + 1) x))
         let minS := minSizeOf s thr cs.length
         let shown := (result.filter fun p => admits minS p.1).map (·.2)
         let others := (result.filter fun p => !admits minS p.1).map (·.1)
         (fun c0 => folderOpen lvl ++ folderLabel lvl c0 s n ++ threadOut (c0 + 1) shown
             ++ (if others.isEmpty then "" else othersDiv lvl others) ++ folderClose lvl,
          1 + usedTotal shown)) := by
  obtain ⟨c, cs', rfl⟩ := List.exists_cons_of_ne_nil h
  refine ⟨print_tree_dir_eq thr lvl n s c cs', List.sorted_insertionSort _ _, ?_⟩
  rw [print_html_tree_elements, htmlCore_dir_eq]

/-- Witness for C2, at threshold 6/5 on a directory with children of sizes
1 and 1 and recorded size 2. -/
theorem render_admits_by_min_size_and_summarizes_others_witness :
    ([Node.file "a" 1, Node.file "b" 1] : List Node) ≠ []
    ∧ ((print_tree ⟨6, 5⟩ 0 (.dir "d" 2 [Node.file "a" 1, Node.file "b" 1])
      = treeLine 0 2 "d" ::
          (let result := List.insertionSort (fun a b => b.1 ≤ a.1)
              ([Node.file "a" 1, Node.file "b" 1].map fun x => (x.size, print_tree ⟨6, 5⟩ (0 + 1) x))
           let minS := minSizeOf 2 ⟨6, 5⟩ ([Node.file "a" 1, Node.file "b" 1] : List Node).length
           ((result.filter fun p => admits minS p.1).map (·.2)).flatten
             ++ if ((result.filter fun p => !admits minS p.1).map (·.1)).isEmpty then []
                else [othersLine 0 ((result.filter fun p => !admits minS p.1).map (·.1))]))
    ∧ List.Sorted (fun a b => b.1 ≤ a.1)
        (List.insertionSort (fun a b => b.1 ≤ a.1)
          ([Node.file "a" 1, Node.file "b" 1].map fun x => (x.size, print_tree ⟨6, 5⟩ (0 + 1) x)))
    ∧ print_html_tree_elements ⟨6, 5⟩ 0 (.dir "d" 2 [Node.file "a" 1, Node.file "b" 1])
      = (let result := List.insertionSort (fun a b => b.1 ≤ a.1)
             ([Node.file "a" 1, Node.file "b" 1].map fun x => (x.size, htmlCore ⟨6, 5⟩ (0 + 1) x))
         let minS := minSizeOf 2 ⟨6, 5⟩ ([Node.file "a" 1, Node.file "b" 1] : List Node).length
         let shown := (result.filter fun p => admits minS p.1).map (·.2)
         let others := (result.filter fun p => !admits minS p.1).map (·.1)
         (fun c0 => folderOpen 0 ++ folderLabel 0 c0 2 "d" ++ threadOut (c0 + 1) shown
             ++ (if others.isEmpty then "" else othersDiv 0 others) ++ folderClose 0,
          1 + usedTotal shown))) :=
  ⟨List.cons_ne_nil _ _,
    render_admits_by_min_size_and_summarizes_others ⟨6, 5⟩ 0 "d" 2
      [Node.file "a" 1, Node.file "b" 1] (List.cons_ne_nil _ _)⟩

/-- C6 (amended): both backends are deterministic — equal tree, threshold
and (for the document backend) equal counter state give equal output, so
`print_tree` is idempotent — but `print_html_tree` draws its toggle ids from
the module-level shared counter, which every directory render strictly
advances, so a second invocation starts from a different counter state. -/
theorem render_deterministic_counter_advances :
    (∀ (thr : Q) (lvl : Nat) (t : Node), print_tree thr lvl t = print_tree thr lvl t)
    ∧ (∀ (thr : Q) (lvl : Nat) (t : Node) (c0 : Nat),
        print_html_tree thr lvl t c0 = print_html_tree thr lvl t c0)
    ∧ ∀ (thr : Q) (lvl : Nat) (n : String) (s : Nat) (cs : List Node) (c0 : Nat),
        c0 + 1 ≤ (print_html_tree thr lvl (.dir n s cs) c0).2 := by
  refine ⟨fun _ _ _ => rfl, fun _ _ _ _ => rfl, ?_⟩
  intro thr lvl n s cs c0
  simp only [print_html_tree, print_html_tree_elements, htmlCore]
  omega

/-- C6 counterexample: rendering the same one-directory tree twice in
succession through `print_html_tree` produces different bytes, because the
second invocation continues the toggle-id counter where the first left it. -/
theorem html_rerender_differs :
    (print_html_tree ⟨6, 5⟩ 0 (.dir "d" 0 []) 0).1
      ≠ (print_html_tree ⟨6, 5⟩ 0 (.dir "d" 0 [])
          (print_html_tree ⟨6, 5⟩ 0 (.dir "d" 0 []) 0).2).1 := by
  set_option maxRecDepth 100000 in decide

/-- A stable sort leaves a list whose keys are all equal unchanged. -/
theorem insertionSort_const_keys {α : Type} (S : Nat) (l : List (Nat × α))
    (h : ∀ p ∈ l, p.1 = S) :
    List.insertionSort (fun a b => b.1 ≤ a.1) l = l := by
  induction l with
  | nil => simp
  | cons a l ih =>
    have ha := h a (by simp)
    have hl : ∀ p ∈ l, p.1 = S := fun p hp => h p (by simp [hp])
    rw [List.insertionSort, ih hl]
    cases l with
    | nil => simp
    | cons b l' =>
      have hb := hl b (by simp)
      simp [List.orderedInsert, hb, ha]

/-- With `parent.size = N * S`, a size-`S` child is admitted iff the
threshold is at most 1 (here: the `≤` direction). -/
theorem admits_equal_all (thr : Q) (N S : Nat) (h : thr.num ≤ thr.den) :
    admits (minSizeOf (N * S) thr N) S = true := by
  simp only [admits, qble, minSizeOf, qdivN, qmul, qOfNat, decide_eq_true_eq]
  push_cast
  nlinarith [mul_le_mul_of_nonneg_left h (show (0 : Int) ≤ (N : Int) * S by positivity)]

/-- With `parent.size = N * S`, `S > 0` and threshold greater than 1, no
size-`S` child is admitted. -/
theorem admits_equal_none (thr : Q) (N S : Nat) (hN : 0 < N) (hS : 0 < S)
    (h : (thr.den : Int) < thr.num) :
    admits (minSizeOf (N * S) thr N) S = false := by
  simp only [admits, qble, minSizeOf, qdivN, qmul, qOfNat, decide_eq_false_iff_not, not_le]
  push_cast
  nlinarith [mul_lt_mul_of_pos_left h
    (show (0 : Int) < (N : Int) * S by
      have := Nat.mul_pos hN hS
      exact_mod_cast this)]

/-- A fold of `qadd` over rationals with zero numerator and positive
denominator has zero numerator and positive denominator. -/
theorem foldr_qadd_num_zero (l : List Q) (h : ∀ q ∈ l, q.num = 0 ∧ 0 < q.den) :
    (l.foldr qadd qZero).num = 0 ∧ 0 < (l.foldr qadd qZero).den := by
  induction l with
  | nil => simp [qZero]
  | cons q l ih =>
    have hq := h q (by simp)
    have ihh := ih fun p hp => h p (by simp [hp])
    simp only [List.foldr_cons, qadd, hq.1, ihh.1]
    constructor
    · ring
    · exact Nat.mul_pos hq.2 ihh.2

/-- The square root of a zero rational is zero. -/
theorem qsqrt_zero_num (q : Q) (h0 : q.num = 0) (hd : 0 < q.den) : qsqrt q = qZero := by
  simp only [qsqrt, qnorm, h0, Int.natAbs_zero, Nat.gcd_zero_left]
  rw [Nat.div_self hd]
  norm_num [isqrt, qZero]

/-- C7 (amended): for a directory whose N children all have size S and whose
recorded size is the children's sum `N * S`, every child is rendered
individually (and no summary appears) when `threshold ≤ 1`, and when
`threshold > 1` and `S > 0` no child is rendered individually and the single
summary reports total `N * S`, count `N`, mean `S` and standard deviation 0.
The code's admission bound is `size * threshold / N = S * threshold`, so the
boundary is at `threshold = 1`, not at `threshold / N = 1`. -/
theorem equal_children_threshold_one_boundary (thr : Q) (lvl : Nat) (n : String) (S : Nat)
    (cs : List Node) (hne : cs ≠ []) (hS : ∀ c ∈ cs, c.size = S) :
    (thr.num ≤ thr.den →
      print_tree thr lvl (.dir n (cs.length * S) cs)
        = treeLine lvl (cs.length * S) n ::
            ((cs.map fun c => print_tree thr (lvl + 1) c).flatten))
    ∧ ((thr.den : Int) < thr.num → 0 < S →
      print_tree thr lvl (.dir n (cs.length * S) cs)
        = [treeLine lvl (cs.length * S) n, othersLine lvl (List.replicate cs.length S)]
      ∧ (List.replicate cs.length S).sum = cs.length * S
      ∧ qeq (qavg (List.replicate cs.length S)) (qOfNat S)
      ∧ qsqrt (qvar (List.replicate cs.length S)) = qZero) := by
  obtain ⟨c, cs', rfl⟩ := List.exists_cons_of_ne_nil hne
  have hkeys : ∀ p ∈ (c :: cs').map (fun x => (Node.size x, print_tree thr (lvl + 1) x)),
      p.1 = S := by
    intro p hp
    rcases List.mem_map.mp hp with ⟨x, hx, rfl⟩
    exact hS x hx
  have hsort := insertionSort_const_keys S _ hkeys
  constructor
  · intro hth
    have hall : ∀ p ∈ (c :: cs').map (fun x => (Node.size x, print_tree thr (lvl + 1) x)),
        admits (minSizeOf ((c :: cs').length * S) thr (c :: cs').length) p.1 = true := by
      intro p hp
      rw [hkeys p hp]
      exact admits_equal_all thr (c :: cs').length S hth
    have hnone : (((c :: cs').map fun x => (Node.size x, print_tree thr (lvl + 1) x)).filter
        fun p => !admits (minSizeOf ((c :: cs').length * S) thr (c :: cs').length) p.1) = [] := by
      rw [List.filter_eq_nil_iff]
      intro p hp
      simp only [hall p hp]
      decide
    simp only [print_tree_dir_eq, hsort, List.filter_eq_self.mpr hall, hnone,
      List.map_nil, List.isEmpty_nil, if_true, List.append_nil, List.map_map]
    rfl
  · intro hth hSpos
    have hNpos : 0 < (c :: cs').length := by simp
    have hrej : ∀ p ∈ (c :: cs').map (fun x => (Node.size x, print_tree thr (lvl + 1) x)),
        (!admits (minSizeOf ((c :: cs').length * S) thr (c :: cs').length) p.1) = true := by
      intro p hp
      rw [hkeys p hp]
      simp only [admits_equal_none thr (c :: cs').length S hNpos hSpos hth]
      decide
    have hnoneAdm : (((c :: cs').map fun x => (Node.size x, print_tree thr (lvl + 1) x)).filter
        fun p => admits (minSizeOf ((c :: cs').length * S) thr (c :: cs').length) p.1) = [] := by
      rw [List.filter_eq_nil_iff]
      intro p hp
      rw [hkeys p hp]
      simp only [admits_equal_none thr (c :: cs').length S hNpos hSpos hth]
      decide
    have hothers : (((c :: cs').map fun x => (Node.size x, print_tree thr (lvl + 1) x)).map (·.1))
        = List.replicate (c :: cs').length S := by
      rw [List.map_map, List.eq_replicate_iff]
      constructor
      · simp
      · intro b hb
        rcases List.mem_map.mp hb with ⟨x, hx, rfl⟩
        exact hS x hx
    have hsum : (List.replicate (c :: cs').length S).sum = (c :: cs').length * S := by
      simp [List.sum_replicate, smul_eq_mul]
    have hqeq : qeq (qavg (List.replicate (c :: cs').length S)) (qOfNat S) := by
      simp only [qeq, qavg, qdivN, qOfNat, hsum, List.length_replicate]
      push_cast
      ring
    have hsub : (qsub (qOfNat S) (qavg (List.replicate (c :: cs').length S))).num = 0 := by
      simp only [qsub, qavg, qdivN, qOfNat, hsum, List.length_replicate]
      push_cast
      ring
    have hsubden : 0 < (qsub (qOfNat S) (qavg (List.replicate (c :: cs').length S))).den := by
      simp only [qsub, qavg, qdivN, qOfNat, List.length_replicate, Nat.one_mul]
      exact hNpos
    have hvar : (qvar (List.replicate (c :: cs').length S)).num = 0
        ∧ 0 < (qvar (List.replicate (c :: cs').length S)).den := by
      have hfold := foldr_qadd_num_zero
        (List.replicate (c :: cs').length
          (qmul (qsub (qOfNat S) (qavg (List.replicate (c :: cs').length S)))
            (qsub (qOfNat S) (qavg (List.replicate (c :: cs').length S)))))
        (by
          intro q hq
          rw [List.eq_of_mem_replicate hq]
          constructor
          · simp only [qmul]
            rw [hsub]
            ring
          · exact Nat.mul_pos hsubden hsubden)
      simp only [qvar, List.map_replicate, qdivN, List.length_replicate]
      exact ⟨hfold.1, Nat.mul_pos hfold.2 hNpos⟩
    have hstddev : qsqrt (qvar (List.replicate (c :: cs').length S)) = qZero :=
      qsqrt_zero_num _ hvar.1 hvar.2
    refine ⟨?_, hsum, hqeq, hstddev⟩
    have hrepne : (List.replicate (c :: cs').length S).isEmpty = false := by
      simp [List.isEmpty_eq_false_iff_exists_mem]
    simp only [print_tree_dir_eq, hsort, List.filter_eq_self.mpr hrej, hnoneAdm,
      List.map_nil, List.flatten_nil, List.nil_append, hothers, hrepne,
      Bool.false_eq_true, if_false]

/-- C7 counterexample: a directory of size 2 with two children of size 1 at
threshold `T = 3/2` has `T/N = 3/4 ≤ 1`, yet no child is rendered
individually and an others summary is emitted. -/
theorem equal_children_small_ratio_still_collapses :
    qble (qdivN ⟨3, 2⟩ 2) qOne = true
    ∧ print_tree ⟨3, 2⟩ 0 (.dir "d" 2 [.file "a" 1, .file "b" 1])
      = ["+ 2B d", "|+ 2B (2 others) avg=1B stddev=0B"] :=
  ⟨by decide, by decide⟩

/-- Witness for C7 at N = 2, S = 1, thresholds 1/2 and 2. -/
theorem equal_children_threshold_one_boundary_witness :
    (Q.num ⟨1, 2⟩ ≤ Q.den ⟨1, 2⟩)
    ∧ ((Q.den ⟨2, 1⟩ : Int) < Q.num ⟨2, 1⟩)
    ∧ print_tree ⟨1, 2⟩ 0
        (.dir "d" (([Node.file "a" 1, Node.file "b" 1] : List Node).length * 1)
          [Node.file "a" 1, Node.file "b" 1])
      = treeLine 0 (([Node.file "a" 1, Node.file "b" 1] : List Node).length * 1) "d" ::
          (([Node.file "a" 1, Node.file "b" 1] : List Node).map
            fun c => print_tree ⟨1, 2⟩ (0 + 1) c).flatten
    ∧ print_tree ⟨2, 1⟩ 0
        (.dir "d" (([Node.file "a" 1, Node.file "b" 1] : List Node).length * 1)
          [Node.file "a" 1, Node.file "b" 1])
      = [treeLine 0 (([Node.file "a" 1, Node.file "b" 1] : List Node).length * 1) "d",
         othersLine 0 (List.replicate ([Node.file "a" 1, Node.file "b" 1] : List Node).length 1)] :=
  ⟨by decide, by decide,
    (equal_children_threshold_one_boundary ⟨1, 2⟩ 0 "d" 1 [Node.file "a" 1, Node.file "b" 1]
      (List.cons_ne_nil _ _) (by decide)).1 (by decide),
    ((equal_children_threshold_one_boundary ⟨2, 1⟩ 0 "d" 1 [Node.file "a" 1, Node.file "b" 1]
      (List.cons_ne_nil _ _) (by decide)).2 (by decide) (by decide)).1⟩

/-- Characters produced by `html.escape` never include an unescaped
markup-significant character. -/
theorem html_escape_chars (s : String) :
    ∀ ch ∈ (html_escape s).data, ch ≠ '<' ∧ ch ≠ '>' ∧ ch ≠ '"' ∧ ch ≠ '\'' := by
  intro ch hch
  have hch' : ch ∈ (s.data.map escChar).flatten := hch
  rcases List.mem_flatten.mp hch' with ⟨l, hl, hchl⟩
  rcases List.mem_map.mp hl with ⟨c, _, rfl⟩
  unfold escChar at hchl
  split_ifs at hchl with h1 h2 h3 h4 h5
  · simp only [List.mem_cons, List.not_mem_nil, or_false] at hchl
    rcases hchl with rfl | rfl | rfl | rfl | rfl <;> exact ⟨by decide, by decide, by decide, by decide⟩
  · simp only [List.mem_cons, List.not_mem_nil, or_false] at hchl
    rcases hchl with rfl | rfl | rfl | rfl <;> exact ⟨by decide, by decide, by decide, by decide⟩
  · simp only [List.mem_cons, List.not_mem_nil, or_false] at hchl
    rcases hchl with rfl | rfl | rfl | rfl <;> exact ⟨by decide, by decide, by decide, by decide⟩
  · simp only [List.mem_cons, List.not_mem_nil, or_false] at hchl
    rcases hchl with rfl | rfl | rfl | rfl | rfl | rfl <;>
      exact ⟨by decide, by decide, by decide, by decide⟩
  · simp only [List.mem_cons, List.not_mem_nil, or_false] at hchl
    rcases hchl with rfl | rfl | rfl | rfl | rfl | rfl <;>
      exact ⟨by decide, by decide, by decide, by decide⟩
  · simp only [List.mem_cons, List.not_mem_nil, or_false] at hchl
    subst hchl
    exact ⟨h2, h3, h4, h5⟩

theorem range'_succ_head (s n : Nat) : List.range' s (n + 1) = s :: List.range' (s + 1) n := rfl

/-- Threading ids through children whose id streams are counter ranges
yields the counter range of the total consumption. -/
theorem threadIds_range (l : List HtmlPart)
    (hl : ∀ p ∈ l, ∀ c, p.2.1 c = List.range' c p.2.2) (c : Nat) :
    threadIds c l = List.range' c (usedTotal l) := by
  induction l generalizing c with
  | nil => simp [threadIds, usedTotal]
  | cons p rest ih =>
    have hp := hl p (by simp)
    have hrest : ∀ q ∈ rest, ∀ c, q.2.1 c = List.range' c q.2.2 :=
      fun q hq => hl q (by simp [hq])
    simp only [threadIds, hp c, ih hrest]
    have hu : usedTotal (p :: rest) = p.2.2 + usedTotal rest := by
      simp [usedTotal]
    rw [hu]
    have hr := List.range'_append c p.2.2 (usedTotal rest) 1
    simp only [one_mul] at hr
    rw [Nat.add_comm p.2.2 (usedTotal rest)]
    exact hr

mutual

/-- The id stream of `htmlCore` starting at counter `c` is exactly the
range of `usedCount` consecutive ids starting at `c`. -/
theorem htmlCore_ids_range (thr : Q) (lvl : Nat) :
    ∀ (t : Node) (c : Nat), (htmlCore thr lvl t).2.1 c
      = List.range' c (htmlCore thr lvl t).2.2
  | .file n s, c => by simp [htmlCore]
  | .dir n s cs, c => by
    have hk := coreKids_ids_range thr (lvl + 1) cs
    simp only [htmlCore]
    rw [Nat.add_comm 1 (usedTotal _)]
    rw [range'_succ_head]
    refine congrArg (c :: ·) ?_
    apply threadIds_range
    intro p hp c'
    rcases List.mem_map.mp hp with ⟨q, hq, rfl⟩
    have hq1 := (List.mem_filter.mp hq).1
    have hq2 := (List.mem_insertionSort _).mp hq1
    exact hk q hq2 c'

/-- Every rendered child in `coreKids` satisfies the id-range property. -/
theorem coreKids_ids_range (thr : Q) (lvl : Nat) :
    ∀ (cs : List Node), ∀ p ∈ coreKids thr lvl cs, ∀ c,
      p.2.2.1 c = List.range' c p.2.2.2
  | [], p, hp, c => by simp [coreKids] at hp
  | t :: ts, p, hp, c => by
    rw [coreKids] at hp
    rcases List.mem_cons.mp hp with h | h
    · subst h
      exact htmlCore_ids_range thr lvl t c
    · exact coreKids_ids_range thr lvl ts p h c

end

/-- C9: within one document-backend render pass no toggle identifier is
assigned twice (the id stream is a contiguous counter range), the number of
ids assigned equals the number of counter values the rendering consumes,
and every markup-significant character of a user-supplied name is escaped
by `html.escape` before being embedded. -/
theorem html_ids_nodup_and_names_escaped (thr : Q) (lvl : Nat) (t : Node) (c0 : Nat) :
    ((html_ids thr lvl t).1 c0).Nodup
    ∧ (html_ids thr lvl t).2 = (print_html_tree_elements thr lvl t).2
    ∧ ∀ s : String, ∀ ch ∈ (html_escape s).data,
        ch ≠ '<' ∧ ch ≠ '>' ∧ ch ≠ '"' ∧ ch ≠ '\'' := by
  refine ⟨?_, rfl, fun s => html_escape_chars s⟩
  have h := htmlCore_ids_range thr lvl t c0
  rw [html_ids]
  simp only []
  rw [h]
  exact List.nodup_range' c0 _
